import Mathlib

/-!
Shallow embedding of the Grapefruit CNC serial connector
(`src/utils/connector.py`) and the UI streaming loop (`src/ui.py`),
together with theorems settling the specification's claims.

Python strings are modelled as Lean `String`; Python exceptions as an
explicit `PyError` value threaded through `Except`; the pyserial `Serial`
object as an explicit `SerialPort` record whose fault behaviour is part of
the model state.
-/

set_option autoImplicit false
set_option linter.unusedVariables false

/-- Python `str.strip()`: remove whitespace from both ends of the string. -/
def pyStrip (s : String) : String :=
  String.mk (List.rdropWhile Char.isWhitespace (List.dropWhile Char.isWhitespace s.data))

/-- Python `str.startswith(pre)`. -/
def pyStartsWith (s pre : String) : Bool :=
  List.isPrefixOf pre.data s.data

/-- Python `needle in haystack` on character lists. -/
def listContainsSub (needle : List Char) : List Char → Bool
  | [] => List.isPrefixOf needle []
  | c :: cs => List.isPrefixOf needle (c :: cs) || listContainsSub needle cs

/-- Python `needle in haystack` for strings. -/
def pyIn (needle haystack : String) : Bool :=
  listContainsSub needle.data haystack.data

/-- Lexicographic comparison of character lists by code point — the order
CPython uses for `str < str` (a strict prefix compares less). -/
def listCharLt : List Char → List Char → Bool
  | [], [] => false
  | [], _ :: _ => true
  | _ :: _, [] => false
  | a :: as, b :: bs => if a < b then true else if b < a then false else listCharLt as bs

/-- Python `a < b` on strings. -/
def pyLt (a b : String) : Bool :=
  listCharLt a.data b.data

/-- Python `a <= b` on strings. -/
def pyLe (a b : String) : Bool :=
  !(pyLt b a)

/-- The acceptance condition of `CNC._parse_command`, as one Bool. -/
def parseCond (s : String) : Bool :=
  !(pyStartsWith s ":" || pyStartsWith s "/" || pyStartsWith s "(") && s != ""

/-- A raised Python exception, as far as the connector distinguishes them:
`serial.SerialException` is the only class `connector.py` ever catches; any
other exception (notably the `AttributeError` raised by dereferencing a
`None` connector) propagates out of the operation, i.e. the program
crashes. -/
inductive PyError where
  | serialException (msg : String)
  | attributeError (msg : String)
  deriving DecidableEq

/-- Model of a pyserial `Serial` object.  `written` records every string
passed to `write`; `toRead` holds the lines the device will deliver to
`readline` (an exhausted list models a read timeout, which pyserial reports
as an empty line); the two `Failing` flags make the corresponding operation
raise `serial.SerialException`; operations on a closed port raise
`serial.SerialException`, as pyserial's `PortNotOpenError` subclasses it. -/
structure SerialPort where
  written : List String
  toRead : List String
  writeFailing : Bool
  readFailing : Bool
  isOpen : Bool
  deriving DecidableEq

def SerialPort.write (p : SerialPort) (data : String) : Except PyError SerialPort :=
  if p.isOpen = false then Except.error (PyError.serialException "Port is not open")
  else if p.writeFailing then Except.error (PyError.serialException "write failed")
  else Except.ok { p with written := p.written ++ [data] }

def SerialPort.readline (p : SerialPort) : Except PyError (SerialPort × String) :=
  if p.isOpen = false then Except.error (PyError.serialException "Port is not open")
  else if p.readFailing then Except.error (PyError.serialException "read failed")
  else
    match p.toRead with
    | [] => Except.ok (p, "")
    | l :: ls => Except.ok ({ p with toRead := ls }, l)

/-- pyserial `Serial.close()`: safe on an already-closed port. -/
def SerialPort.close (p : SerialPort) : SerialPort :=
  { p with isOpen := false }

/-- The `CNC` class of `connector.py`: port name, baud rate, and the
`connector` attribute which is `None` until `connect()` assigns it. -/
structure CNC where
  serial_port : String
  baud_rate : Nat
  connector : Option SerialPort
  deriving DecidableEq

/-- `CNC._parse_command` from `connector.py`: strip the line, reject it when
empty or starting with a comment marker, and run the inline-comment
truncation loop.  That loop only rebinds its own iteration variable
(`comment = comment.split(comment, 1)[0]`) and never assigns to `command`,
so its result is discarded and the stripped line is returned unmodified. -/
def CNC._parse_command (command : String) : Option String :=
  let command := pyStrip command
  if !(pyStartsWith command ":" || pyStartsWith command "/" || pyStartsWith command "(")
      && command != "" then
    let _loop := [ ":", "/", "(" ].map (fun comment =>
      if pyIn comment command then (comment.splitOn comment).headD "" else comment)
    some command
  else
    none

/-- `CNC.send_gcode` from `connector.py`.  The `try` block catches only
`serial.SerialException` (logging it and falling through to `return None`);
any other exception escapes.  Dereferencing a `None` value — `command` or
`self.connector` — raises `AttributeError`, which is therefore returned as
an uncaught `PyError.attributeError`. -/
def CNC.send_gcode (self : CNC) (command : String) (verbose run_anyway : Bool) :
    Except PyError (CNC × Option String) :=
  let cmd : Option String := if run_anyway then some command else CNC._parse_command command
  if (match cmd with | some c => c != "" | none => false) || run_anyway then
    match cmd with
    | none => Except.error (PyError.attributeError "NoneType has no attribute strip")
    | some c =>
      match self.connector with
      | none => Except.error (PyError.attributeError "NoneType has no attribute write")
      | some p =>
        match p.write (pyStrip c ++ "\r\n") with
        | Except.error (PyError.serialException _) => Except.ok (self, none)
        | Except.error e => Except.error e
        | Except.ok p1 =>
          match p1.readline with
          | Except.error (PyError.serialException _) =>
            Except.ok ({ self with connector := some p1 }, none)
          | Except.error e => Except.error e
          | Except.ok (p2, line) =>
            Except.ok ({ self with connector := some p2 }, some (pyStrip line))
  else
    Except.ok (self, none)

/-- `CNC.terminate` from `connector.py`: if a connector object exists, send
the end-of-job command `M02` through the normal send path and close the
port.  The `connector` attribute is never reset to `None`. -/
def CNC.terminate (self : CNC) : Except PyError CNC :=
  match self.connector with
  | none => Except.ok self
  | some _ =>
    match self.send_gcode "M02" true false with
    | Except.error e => Except.error e
    | Except.ok (self1, _) =>
      match self1.connector with
      | none => Except.error (PyError.attributeError "NoneType has no attribute close")
      | some p => Except.ok { self1 with connector := some p.close }

/-- The startup-drain loop of `connect`: while data is waiting, read a line,
strip it, and append non-empty lines to the accumulated startup text.
Recursion is on the pending line list so that the function evaluates. -/
def CNC.drainAux (p : SerialPort) (acc : String) : List String → Except PyError (SerialPort × String)
  | [] => Except.ok ({ p with toRead := [] }, acc)
  | l :: ls =>
    if p.isOpen = false then Except.error (PyError.serialException "Port is not open")
    else if p.readFailing then Except.error (PyError.serialException "read failed")
    else
      let line := pyStrip l
      CNC.drainAux p (if line != "" then acc ++ line ++ "\n" else acc) ls

def CNC.drainStartup (p : SerialPort) : Except PyError (SerialPort × String) :=
  CNC.drainAux p "" p.toRead

/-- `CNC.connect` from `connector.py`.  `openOutcome` stands for the
`serial.Serial(...)` constructor call, which either yields a fresh port
object or raises `serial.SerialException`.  After the settle delay the
startup output is drained, the port is flushed (a no-op here) and the
handshake sends `M105` through the normal send path.  The `except` clause
logs the serial fault and re-raises it, so the `return False` statement
that follows the `raise` is dead code: no execution reaches it, and it has
no counterpart in the embedding. -/
def CNC.connect (self : CNC) (openOutcome : Except String SerialPort) :
    Except PyError (CNC × Bool) :=
  let body : Except PyError (CNC × Bool) :=
    match openOutcome with
    | Except.error msg => Except.error (PyError.serialException msg)
    | Except.ok dev =>
      let self1 : CNC := { self with connector := some dev }
      match CNC.drainStartup dev with
      | Except.error e => Except.error e
      | Except.ok (dev1, _startup) =>
        let self2 : CNC := { self1 with connector := some dev1 }
        match self2.send_gcode "M105" true false with
        | Except.error e => Except.error e
        | Except.ok (self3, _) => Except.ok (self3, true)
  match body with
  | Except.ok r => Except.ok r
  | Except.error (PyError.serialException m) => Except.error (PyError.serialException m)
  | Except.error e => Except.error e

/-- The spec's link state: `Disconnected` when there is no connector object
or the underlying port has been closed. -/
def CNC.isDisconnected (self : CNC) : Bool :=
  match self.connector with
  | none => true
  | some p => !p.isOpen

/-- The machine-descriptor dictionary built by `get_machines`. -/
structure Machine where
  port : String
  desc : String
  hwid : String
  deriving DecidableEq

/-- Stable ordered insertion by port identifier — the comparison pyserial's
`ListPortInfo.__lt__` performs inside `sorted(ports)` is `a.device <
b.device`, a Python string comparison. -/
def insertByPort (x : String × String × String) :
    List (String × String × String) → List (String × String × String)
  | [] => [x]
  | y :: ys => if pyLt y.1 x.1 then y :: insertByPort x ys else x :: y :: ys

/-- Python `sorted(ports)`: the enumerated ports ordered by port identifier. -/
def sortPorts (ports : List (String × String × String)) : List (String × String × String) :=
  ports.foldr insertByPort []

/-- `get_machines` from `connector.py`: sort the enumerated `(port, desc,
hwid)` triples, drop every entry whose description is the sentinel `"n/a"`,
and package the rest as machine descriptors. -/
def get_machines (ports : List (String × String × String)) : List Machine :=
  (sortPorts ports).foldl
    (fun results t => if t.2.1 != "n/a" then results ++ [ Machine.mk t.1 t.2.1 t.2.2 ] else results)
    []

/-- `UI._stream_gcode` from `ui.py`.  The `send_gcode` call is commented out
in the source (`# NOT IMPLEMENTED YET`): each truthy line is logged and then
followed by the fixed inter-command delay, but nothing is ever transmitted.
The result is the (unchanged) CNC state paired with the number of
inter-command delays slept. -/
def UI._stream_gcode (cnc : CNC) (commands : List String) (verbose : Bool) : CNC × Nat :=
  commands.foldl
    (fun st command => if command != "" then (st.1, st.2 + 1) else st)
    (cnc, 0)

/-- A concrete port enumeration used as a witness input: out-of-order ports,
one with the `"n/a"` sentinel description. -/
def demoPorts : List (String × String × String) :=
  [ ("COM4", "x", "h1"), ("COM1", "n/a", "h2"), ("COM2", "dev", "h3") ]

/-! ### Helper lemmas about the sanitizer -/

theorem head_not_of_dropWhile_self (w : Char → Bool) (a : Char) (rest : List Char)
    (hD : List.dropWhile w (a :: rest) = a :: rest) : w a = false := by
  by_cases hwa : w a = true
  · exfalso
    rw [List.dropWhile_cons, if_pos hwa] at hD
    have hle := (List.dropWhile_suffix (l := rest) w).sublist.length_le
    rw [hD] at hle
    simp at hle
  · simpa using hwa

theorem dropWhile_of_prefix (w : Char → Bool) (l1 l2 : List Char)
    (hp : l1 <+: l2) (hD : List.dropWhile w l2 = l2) :
    List.dropWhile w l1 = l1 := by
  cases l1 with
  | nil => rfl
  | cons a as =>
    obtain ⟨t, ht⟩ := hp
    subst ht
    rw [List.cons_append] at hD
    have hwa := head_not_of_dropWhile_self w a (as ++ t) hD
    rw [List.dropWhile_cons, if_neg (by simp [hwa])]

theorem pyStrip_idem (s : String) : pyStrip (pyStrip s) = pyStrip s := by
  have h1 := List.dropWhile_idempotent Char.isWhitespace s.data
  have h2 := dropWhile_of_prefix Char.isWhitespace _ _
    (List.rdropWhile_prefix Char.isWhitespace (List.dropWhile Char.isWhitespace s.data)) h1
  show String.mk (List.rdropWhile Char.isWhitespace (List.dropWhile Char.isWhitespace
      (List.rdropWhile Char.isWhitespace (List.dropWhile Char.isWhitespace s.data)))) =
    String.mk (List.rdropWhile Char.isWhitespace (List.dropWhile Char.isWhitespace s.data))
  rw [h2, List.rdropWhile_idempotent]

theorem parse_command_eq_some (cmd c : String) :
    CNC._parse_command cmd = some c ↔ parseCond (pyStrip cmd) = true ∧ c = pyStrip cmd := by
  unfold CNC._parse_command parseCond
  by_cases hcond : (!(pyStartsWith (pyStrip cmd) ":" || pyStartsWith (pyStrip cmd) "/"
      || pyStartsWith (pyStrip cmd) "(") && pyStrip cmd != "") = true
  · rw [if_pos hcond]
    constructor
    · intro h
      exact ⟨hcond, (Option.some.inj h).symm⟩
    · rintro ⟨-, rfl⟩
      rfl
  · rw [if_neg hcond]
    constructor
    · intro h
      cases h
    · rintro ⟨h, -⟩
      exact absurd h hcond

theorem parse_command_eq_none (cmd : String) :
    CNC._parse_command cmd = none ↔ parseCond (pyStrip cmd) = false := by
  unfold CNC._parse_command parseCond
  by_cases hcond : (!(pyStartsWith (pyStrip cmd) ":" || pyStartsWith (pyStrip cmd) "/"
      || pyStartsWith (pyStrip cmd) "(") && pyStrip cmd != "") = true
  · rw [if_pos hcond]
    constructor
    · intro h
      cases h
    · intro h
      rw [hcond] at h
      cases h
  · rw [if_neg hcond]
    constructor
    · intro _
      exact Bool.not_eq_true _ ▸ (by simpa using hcond)
    · intro _
      rfl

/-! ### Claim theorems: the sanitizer -/

/-- C1: every input line that strips to a non-empty string not starting with
`:`, `/` or `(` is returned by `CNC._parse_command` completely unmodified
(equal to the stripped line, inline comments included): the truncation loop
computes substrings but never applies them to the returned value. -/
theorem parse_command_returns_line_untruncated (cmd : String)
    (h1 : pyStrip cmd ≠ "")
    (h2 : pyStartsWith (pyStrip cmd) ":" = false)
    (h3 : pyStartsWith (pyStrip cmd) "/" = false)
    (h4 : pyStartsWith (pyStrip cmd) "(" = false) :
    CNC._parse_command cmd = some (pyStrip cmd) := by
  rw [parse_command_eq_some]
  refine ⟨?_, rfl⟩
  simp [parseCond, h2, h3, h4, h1]

/-- C1 witness: a line with an inline parenthesised comment is returned
whole, comment included. -/
theorem parse_command_returns_line_untruncated_witness :
    pyStrip "G1 X10 (move home)" = "G1 X10 (move home)" ∧
    CNC._parse_command "G1 X10 (move home)" = some (pyStrip "G1 X10 (move home)") :=
  ⟨ by decide,
    parse_command_returns_line_untruncated "G1 X10 (move home)"
      (by decide) (by decide) (by decide) (by decide) ⟩

/-- C4: a line that strips to the empty string or begins with a comment
marker sanitizes to `none`, and `send_gcode` without `run_anyway` skips the
transmission, returning `none` with the link state untouched. -/
theorem parse_command_rejects_comments_and_blanks (cmd : String)
    (h : pyStrip cmd = "" ∨ pyStartsWith (pyStrip cmd) ":" = true ∨
      pyStartsWith (pyStrip cmd) "/" = true ∨ pyStartsWith (pyStrip cmd) "(" = true) :
    CNC._parse_command cmd = none ∧
    ∀ (self : CNC) (v : Bool), self.send_gcode cmd v false = Except.ok (self, none) := by
  have hp : CNC._parse_command cmd = none := by
    rw [parse_command_eq_none, parseCond]
    rcases h with h | h | h | h <;> simp [h]
  refine ⟨hp, fun self v => ?_⟩
  unfold CNC.send_gcode
  simp [hp]

/-- C4 witness: a parenthesised comment line is rejected and skipped on a
concrete disconnected link. -/
theorem parse_command_rejects_comments_and_blanks_witness :
    CNC._parse_command "(this is a comment)" = none ∧
    (CNC.mk "COM3" 9600 none).send_gcode "(this is a comment)" true false =
      Except.ok (CNC.mk "COM3" 9600 none, none) := by
  have h := parse_command_rejects_comments_and_blanks "(this is a comment)"
    (Or.inr (Or.inr (Or.inr (by decide))))
  exact ⟨h.1, h.2 (CNC.mk "COM3" 9600 none) true⟩

/-- C9: the sanitizer is idempotent on accepted lines: whenever it returns a
result, that result is accepted verbatim on a second pass, and it is never
the empty string. -/
theorem parse_command_idem (cmd r : String)
    (h : CNC._parse_command cmd = some r) :
    CNC._parse_command r = some r ∧ r ≠ "" := by
  obtain ⟨hcond, rfl⟩ := (parse_command_eq_some cmd r).mp h
  constructor
  · rw [parse_command_eq_some]
    rw [pyStrip_idem]
    exact ⟨hcond, rfl⟩
  · have := (Bool.and_eq_true _ _).mp hcond |>.2
    simpa using this

/-- C9 witness: the sanitizer's output for a concrete accepted line passes
through unchanged. -/
theorem parse_command_idem_witness :
    CNC._parse_command "G1 X1" = some "G1 X1" ∧ "G1 X1" ≠ "" :=
  parse_command_idem "  G1 X1  " "G1 X1" (by decide)

/-! ### Claim theorems: send_gcode error behaviour -/

/-- C3 counterexample: on a link whose `connect` never ran (`connector` is
`None`), sending a valid command does not produce any defined precondition
error: it raises an uncaught `AttributeError` — the model of a Python crash
— because only `serial.SerialException` is caught. -/
theorem send_gcode_disconnected_crashes_counterexample :
    (CNC.mk "COM3" 9600 none).send_gcode "G1 X1" true false =
      Except.error (PyError.attributeError "NoneType has no attribute write") := by
  rfl

/-- C3 amended: `send_gcode` on a `Disconnected` link performs no
precondition check: for every command the sanitizer accepts, it aborts with
an uncaught `AttributeError` (a crash), which the serial-fault handler does
not catch, instead of reporting a defined precondition error. -/
theorem send_gcode_disconnected_raises (self : CNC) (cmd c : String) (v : Bool)
    (hconn : self.connector = none)
    (hcmd : CNC._parse_command cmd = some c) :
    self.send_gcode cmd v false =
      Except.error (PyError.attributeError "NoneType has no attribute write") := by
  obtain ⟨hcond, rfl⟩ := (parse_command_eq_some cmd _).mp hcmd
  have hcne : (pyStrip cmd != "") = true := ((Bool.and_eq_true _ _).mp hcond).2
  unfold CNC.send_gcode
  simp [hcmd, hconn, hcne]

/-- C3 amended witness: the crash at a concrete disconnected link and
command. -/
theorem send_gcode_disconnected_raises_witness :
    (CNC.mk "COM1" 115200 none).send_gcode "G0 X2" false false =
      Except.error (PyError.attributeError "NoneType has no attribute write") :=
  send_gcode_disconnected_raises (CNC.mk "COM1" 115200 none) "G0 X2" "G0 X2" false
    rfl (by decide)

/-- C6: on a connected link whose transport faults during the write or the
read, `send_gcode` catches the serial fault and returns `none` instead of
propagating it — observably the same `none` a skipped comment line yields. -/
theorem send_gcode_swallows_transport_fault (self : CNC) (p : SerialPort)
    (cmd c : String) (v : Bool)
    (hconn : self.connector = some p)
    (hopen : p.isOpen = true)
    (hfault : p.writeFailing = true ∨ p.readFailing = true)
    (hcmd : CNC._parse_command cmd = some c) :
    ∃ s, self.send_gcode cmd v false = Except.ok (s, none) := by
  obtain ⟨hcond, rfl⟩ := (parse_command_eq_some cmd _).mp hcmd
  have hcne : (pyStrip cmd != "") = true := ((Bool.and_eq_true _ _).mp hcond).2
  unfold CNC.send_gcode
  by_cases hw : p.writeFailing = true
  · refine ⟨self, ?_⟩
    simp [hcmd, hconn, hcne, SerialPort.write, hopen, hw]
  · have hr : p.readFailing = true := by
      rcases hfault with h | h
      · exact absurd h hw
      · exact h
    refine ⟨{ self with connector := some { p with written := p.written ++ [pyStrip (pyStrip cmd) ++ "\r\n"] } }, ?_⟩
    simp [hcmd, hconn, hcne, SerialPort.write, SerialPort.readline, hopen, hw, hr]

/-- C6 witness: a concrete connected link with a failing transport yields
`Except.ok` with an absent response. -/
theorem send_gcode_swallows_transport_fault_witness :
    ∃ s, (CNC.mk "COM3" 9600 (some (SerialPort.mk [] ["ok"] true false true))).send_gcode
      "G1 X1" true false = Except.ok (s, none) :=
  send_gcode_swallows_transport_fault
    (CNC.mk "COM3" 9600 (some (SerialPort.mk [] ["ok"] true false true)))
    (SerialPort.mk [] ["ok"] true false true) "G1 X1" "G1 X1" true
    rfl rfl (Or.inl rfl) (by decide)

/-- C10: with `run_anyway` set, `send_gcode` bypasses sanitization entirely,
including the blank-line check: a command that strips to nothing is still
transmitted, the write consisting of just the `"\r\n"` terminator. -/
theorem send_gcode_run_anyway_transmits_blank (self : CNC) (p : SerialPort)
    (cmd : String) (v : Bool)
    (hconn : self.connector = some p)
    (hopen : p.isOpen = true)
    (hw : p.writeFailing = false)
    (hr : p.readFailing = false)
    (hblank : pyStrip cmd = "") :
    ∃ q resp, self.send_gcode cmd v true = Except.ok ({ self with connector := some q }, some resp) ∧
      q.written = p.written ++ [ "\r\n" ] := by
  unfold CNC.send_gcode
  cases htr : p.toRead with
  | nil =>
    refine ⟨{ p with written := p.written ++ [ "\r\n" ] }, pyStrip "", ?_, rfl⟩
    simp [hconn, SerialPort.write, SerialPort.readline, hopen, hw, hr, hblank, htr]
  | cons l ls =>
    refine ⟨{ p with written := p.written ++ [ "\r\n" ], toRead := ls }, pyStrip l, ?_, rfl⟩
    simp [hconn, SerialPort.write, SerialPort.readline, hopen, hw, hr, hblank, htr]

/-- C10 witness: a whitespace-only command on a concrete working link writes
exactly the line terminator. -/
theorem send_gcode_run_anyway_transmits_blank_witness :
    ∃ q resp, (CNC.mk "COM3" 9600 (some (SerialPort.mk [] ["ok"] false false true))).send_gcode
      "   " true true =
        Except.ok ({ CNC.mk "COM3" 9600 (some (SerialPort.mk [] ["ok"] false false true)) with
          connector := some q }, some resp) ∧
      q.written = [] ++ [ "\r\n" ] :=
  send_gcode_run_anyway_transmits_blank
    (CNC.mk "COM3" 9600 (some (SerialPort.mk [] ["ok"] false false true)))
    (SerialPort.mk [] ["ok"] false false true) "   " true
    rfl rfl rfl rfl (by decide)

/-! ### Claim theorems: connect and terminate -/

theorem send_gcode_connected_ok (self : CNC) (p : SerialPort) (cmd : String) (v ra : Bool)
    (hconn : self.connector = some p) :
    ∃ r, self.send_gcode cmd v ra = Except.ok r := by
  obtain ⟨w, tr, wf, rf, op⟩ := p
  cases ra with
  | true =>
    cases op <;> cases wf <;> cases rf <;> cases tr <;>
      simp [CNC.send_gcode, hconn, SerialPort.write, SerialPort.readline]
  | false =>
    cases hpc : CNC._parse_command cmd with
    | none => simp [CNC.send_gcode, hpc]
    | some c =>
      by_cases hce : (c != "") = true
      · cases op <;> cases wf <;> cases rf <;> cases tr <;>
          simp [CNC.send_gcode, hconn, hpc, hce, SerialPort.write, SerialPort.readline]
      · have hce2 : (c != "") = false := by simpa using hce
        simp [CNC.send_gcode, hconn, hpc, hce2]

theorem drainAux_ok_or_serial (p : SerialPort) (acc : String) (ls : List String) :
    (∃ r, CNC.drainAux p acc ls = Except.ok r) ∨
    (∃ m, CNC.drainAux p acc ls = Except.error (PyError.serialException m)) := by
  induction ls generalizing acc with
  | nil => exact Or.inl ⟨_, rfl⟩
  | cons l ls ih =>
    unfold CNC.drainAux
    by_cases hop : p.isOpen = false
    · rw [if_pos hop]
      exact Or.inr ⟨_, rfl⟩
    · rw [if_neg hop]
      by_cases hrf : p.readFailing = true
      · rw [if_pos hrf]
        exact Or.inr ⟨_, rfl⟩
      · rw [if_neg hrf]
        exact ih _

theorem drainStartup_ok_or_serial (p : SerialPort) :
    (∃ r, CNC.drainStartup p = Except.ok r) ∨
    (∃ m, CNC.drainStartup p = Except.error (PyError.serialException m)) :=
  drainAux_ok_or_serial p "" p.toRead

/-- C5: `connect` never returns `false`: every call either returns `true` or
aborts with the re-raised serial fault, so the `return False` statement after
the `raise` is unreachable. -/
theorem connect_never_returns_false (self : CNC) (openOutcome : Except String SerialPort) :
    (∃ s, self.connect openOutcome = Except.ok (s, true)) ∨
    (∃ m, self.connect openOutcome = Except.error (PyError.serialException m)) := by
  cases openOutcome with
  | error msg => exact Or.inr ⟨msg, rfl⟩
  | ok dev =>
    rcases drainStartup_ok_or_serial dev with ⟨⟨dev1, st⟩, hd⟩ | ⟨m, hd⟩
    · obtain ⟨⟨self3, resp⟩, hs⟩ := send_gcode_connected_ok
        { self with connector := some dev1 } dev1 "M105" true false rfl
      exact Or.inl ⟨self3, by simp [CNC.connect, hd, hs]⟩
    · exact Or.inr ⟨m, by simp [CNC.connect, hd]⟩

/-- C7: `terminate` never raises and always leaves the link in the
`Disconnected` state (connector absent or port closed); a second call in
succession also does not raise and returns the very same state, whatever
state the link started in — including ports whose transport errors out
while the closing `M02` is sent. -/
theorem terminate_idempotent_nonraising (self : CNC) :
    ∃ s, self.terminate = Except.ok s ∧ s.isDisconnected = true ∧ s.terminate = Except.ok s := by
  obtain ⟨sp, br, conn⟩ := self
  cases conn with
  | none => exact ⟨_, rfl, rfl, rfl⟩
  | some p =>
    obtain ⟨w, tr, wf, rf, op⟩ := p
    cases op <;> cases wf <;> cases rf <;> cases tr <;>
      exact ⟨_, rfl, rfl, rfl⟩


/-! ### Claim theorems: port discovery and the streaming loop -/

theorem listCharLt_cons (a b : Char) (as bs : List Char) :
    listCharLt (a :: as) (b :: bs) = true ↔ a < b ∨ (a = b ∧ listCharLt as bs = true) := by
  show (if a < b then true else if b < a then false else listCharLt as bs) = true ↔ _
  split_ifs with h1 h2
  · simp [h1]
  · simp only [Bool.false_eq_true, false_iff]
    rintro (h | ⟨rfl, -⟩)
    · exact h1 h
    · exact lt_irrefl _ h2
  · have hab : a = b := le_antisymm (le_of_not_lt h2) (le_of_not_lt h1)
    simp [h1, hab]

theorem listCharLt_asymm (a b : List Char) (h : listCharLt a b = true) :
    listCharLt b a = false := by
  induction a generalizing b with
  | nil =>
    cases b with
    | nil => simp [listCharLt] at h
    | cons y ys => rfl
  | cons x xs ih =>
    cases b with
    | nil => simp [listCharLt] at h
    | cons y ys =>
      rw [Bool.eq_false_iff]
      intro hba
      rcases (listCharLt_cons x y xs ys).mp h with hxy | ⟨rfl, hr⟩
      · rcases (listCharLt_cons y x ys xs).mp hba with hyx | ⟨heq, -⟩
        · exact lt_asymm hxy hyx
        · exact absurd (heq ▸ hxy) (lt_irrefl _)
      · rcases (listCharLt_cons x x ys xs).mp hba with hyx | ⟨-, hr2⟩
        · exact lt_irrefl _ hyx
        · exact absurd hr2 (by simp [ih ys hr])

theorem listCharLt_conn (a b : List Char) (h : listCharLt a b = false) :
    a = b ∨ listCharLt b a = true := by
  induction a generalizing b with
  | nil =>
    cases b with
    | nil => exact Or.inl rfl
    | cons y ys => simp [listCharLt] at h
  | cons x xs ih =>
    cases b with
    | nil => exact Or.inr rfl
    | cons y ys =>
      by_cases hxy : x < y
      · exact absurd ((listCharLt_cons x y xs ys).mpr (Or.inl hxy)) (by simp [h])
      · by_cases hyx : y < x
        · exact Or.inr ((listCharLt_cons y x ys xs).mpr (Or.inl hyx))
        · have hab : x = y := le_antisymm (le_of_not_lt hyx) (le_of_not_lt hxy)
          subst hab
          have hxsys : listCharLt xs ys = false := by
            by_cases h2 : listCharLt xs ys = true
            · exact absurd ((listCharLt_cons x x xs ys).mpr (Or.inr ⟨rfl, h2⟩)) (by simp [h])
            · simpa using h2
          rcases ih ys hxsys with rfl | hlt
          · exact Or.inl rfl
          · exact Or.inr ((listCharLt_cons x x ys xs).mpr (Or.inr ⟨rfl, hlt⟩))

theorem listCharLt_trans (a b c : List Char) (h1 : listCharLt a b = true)
    (h2 : listCharLt b c = true) : listCharLt a c = true := by
  induction a generalizing b c with
  | nil =>
    cases c with
    | nil =>
      cases b with
      | nil => simp [listCharLt] at h1
      | cons y ys => simp [listCharLt] at h2
    | cons z zs => rfl
  | cons x xs ih =>
    cases b with
    | nil => simp [listCharLt] at h1
    | cons y ys =>
      cases c with
      | nil => simp [listCharLt] at h2
      | cons z zs =>
        rw [listCharLt_cons] at h1 h2 ⊢
        rcases h1 with hxy | ⟨rfl, hr1⟩
        · rcases h2 with hyz | ⟨rfl, hr2⟩
          · exact Or.inl (lt_trans hxy hyz)
          · exact Or.inl hxy
        · rcases h2 with hyz | ⟨rfl, hr2⟩
          · exact Or.inl hyz
          · exact Or.inr ⟨rfl, ih ys zs hr1 hr2⟩

theorem pyLe_of_pyLt (a b : String) (h : pyLt a b = true) : pyLe a b = true := by
  have h2 : listCharLt b.data a.data = false := listCharLt_asymm a.data b.data h
  simp [pyLe, pyLt, h2]

theorem pyLe_of_not_lt (a b : String) (h : pyLt b a = false) : pyLe a b = true := by
  simp [pyLe, h]

theorem pyLe_trans (a b c : String) (h1 : pyLe a b = true) (h2 : pyLe b c = true) :
    pyLe a c = true := by
  have g1 : listCharLt b.data a.data = false := by
    have h := h1
    simp only [pyLe, Bool.not_eq_true'] at h
    exact h
  have g2 : listCharLt c.data b.data = false := by
    have h := h2
    simp only [pyLe, Bool.not_eq_true'] at h
    exact h
  show (!listCharLt c.data a.data) = true
  rw [Bool.not_eq_true']
  rw [Bool.eq_false_iff]
  intro hca
  rcases listCharLt_conn _ _ g2 with heq | hbc
  · rw [heq] at hca
    exact absurd hca (by simp [g1])
  · have hba := listCharLt_trans _ _ _ hbc hca
    exact absurd hba (by simp [g1])

theorem mem_insertByPort (x z : String × String × String)
    (l : List (String × String × String)) :
    z ∈ insertByPort x l ↔ z = x ∨ z ∈ l := by
  induction l with
  | nil => simp [insertByPort]
  | cons y ys ih =>
    unfold insertByPort
    by_cases h : pyLt y.1 x.1 = true
    · rw [if_pos h]
      simp only [List.mem_cons, ih]
      tauto
    · rw [if_neg h]
      simp [List.mem_cons]

theorem pairwise_insertByPort (x : String × String × String)
    (l : List (String × String × String))
    (h : l.Pairwise (fun a b => pyLe a.1 b.1 = true)) :
    (insertByPort x l).Pairwise (fun a b => pyLe a.1 b.1 = true) := by
  induction l with
  | nil => simp [insertByPort]
  | cons y ys ih =>
    rw [List.pairwise_cons] at h
    obtain ⟨hy, hys⟩ := h
    unfold insertByPort
    by_cases hlt : pyLt y.1 x.1 = true
    · rw [if_pos hlt, List.pairwise_cons]
      refine ⟨fun z hz => ?_, ih hys⟩
      rcases (mem_insertByPort x z ys).mp hz with rfl | hz
      · exact pyLe_of_pyLt y.1 z.1 hlt
      · exact hy z hz
    · have hlt2 : pyLt y.1 x.1 = false := by simpa using hlt
      rw [if_neg hlt, List.pairwise_cons]
      refine ⟨fun z hz => ?_, List.pairwise_cons.mpr ⟨hy, hys⟩⟩
      rcases List.mem_cons.mp hz with rfl | hz
      · exact pyLe_of_not_lt x.1 z.1 hlt2
      · exact pyLe_trans x.1 y.1 z.1 (pyLe_of_not_lt x.1 y.1 hlt2) (hy z hz)

theorem pairwise_sortPorts (ports : List (String × String × String)) :
    (sortPorts ports).Pairwise (fun a b => pyLe a.1 b.1 = true) := by
  unfold sortPorts
  induction ports with
  | nil => simp
  | cons x xs ih => exact pairwise_insertByPort x _ ih

theorem get_machines_foldl (l : List (String × String × String)) (init : List Machine) :
    l.foldl
        (fun results t => if t.2.1 != "n/a" then results ++ [ Machine.mk t.1 t.2.1 t.2.2 ] else results)
        init
      = init ++ (l.filter (fun t => t.2.1 != "n/a")).map (fun t => Machine.mk t.1 t.2.1 t.2.2) := by
  induction l generalizing init with
  | nil => simp
  | cons t ts ih =>
    simp only [List.foldl_cons, List.filter_cons]
    by_cases h : (t.2.1 != "n/a") = true
    · rw [if_pos h, if_pos h, ih]
      simp
    · have h2 : (t.2.1 != "n/a") = false := by simpa using h
      simp only [h2, Bool.false_eq_true, if_false]
      exact ih init

theorem get_machines_eq (ports : List (String × String × String)) :
    get_machines ports
      = ((sortPorts ports).filter (fun t => t.2.1 != "n/a")).map
          (fun t => Machine.mk t.1 t.2.1 t.2.2) := by
  unfold get_machines
  rw [get_machines_foldl]
  simp

/-- C8: port discovery never returns a descriptor whose description is the
sentinel `"n/a"`, and the returned descriptors are ordered by port
identifier ascending (`pyLe` is the Python string order `sorted` uses). -/
theorem get_machines_spec (ports : List (String × String × String)) :
    (∀ m ∈ get_machines ports, m.desc ≠ "n/a") ∧
    (get_machines ports).Pairwise (fun a b => pyLe a.port b.port = true) := by
  rw [get_machines_eq]
  constructor
  · intro m hm
    obtain ⟨t, ht, rfl⟩ := List.mem_map.mp hm
    have hf := List.of_mem_filter ht
    simpa using hf
  · exact List.Pairwise.map _ (fun a b h => h)
      (List.Pairwise.filter _ (pairwise_sortPorts ports))

/-- C8 witness: on the concrete enumeration, a surviving entry has a
description other than `"n/a"` and the output is sorted by port. -/
theorem get_machines_spec_witness :
    (Machine.mk "COM2" "dev" "h3").desc ≠ "n/a" ∧
    (get_machines demoPorts).Pairwise (fun a b => pyLe a.port b.port = true) := by
  have h := get_machines_spec demoPorts
  refine ⟨h.1 (Machine.mk "COM2" "dev" "h3") ?_, h.2⟩
  have he : get_machines demoPorts =
      [ Machine.mk "COM2" "dev" "h3", Machine.mk "COM4" "x" "h1" ] := rfl
  rw [he]
  exact List.mem_cons_self _ _

/-- C2 (the code evaluated at the claimed batch): the streaming loop as
implemented transmits nothing — its `send_gcode` call is commented out
(`# NOT IMPLEMENTED YET`), although its docstring says it sends the
commands — so the CNC state comes back unchanged, while the fixed
inter-command delay is slept after each of the three non-empty lines
(`G1 X1`, `(comment)`, `G1 X2`); the empty line is skipped without delay. -/
theorem stream_gcode_transmits_nothing (cnc : CNC) (v : Bool) :
    UI._stream_gcode cnc [ "G1 X1", "", "(comment)", "G1 X2" ] v = (cnc, 3) := by
  rfl
